import Mathlib

/-!
Shallow embedding of the BlackRoad observability platform
(`src/observability.py`): the telemetry store (metrics, spans, logs),
the ingestion operations, the query layer, trace reconstruction and the
alert evaluator.

Modelling conventions:
* Instants are integers counting milliseconds; `datetime.now()` becomes an
  explicit `now : Int` parameter of each operation.  The SQLite `TEXT`
  timestamps compare lexicographically exactly as the instants compare
  numerically (ISO-8601 with fixed-width fields), so `Int` comparison is a
  faithful model of the stored comparisons.
* Metric values are modelled by `Val`: either an exact finite number
  (as a rational) or one of the infinities `inf`, `ninf`, with IEEE
  comparison semantics.  These are exactly the Python floats that
  round-trip through the `REAL` column: the sqlite3 driver binds a NaN
  as SQL `NULL` (read back as `None`), so a stored NaN does not exist —
  `Val` deliberately has no NaN and the embedding does not cover
  NULL-valued rows.
* Generated UUIDs are oracle inputs: each operation that generates an id
  takes it as an explicit argument.
* The SQLite table scan without `ORDER BY` returns rows in rowid order,
  which for these append-only inserts is insertion order; the store keeps
  each table as a Lean list in insertion order.
* Methods the error-handling spec calls fallible (`record_metric`,
  `end_span`) return `Except ObsError _`; their translated bodies never
  actually raise, mirroring the Python source, which contains no raise
  and whose `UPDATE` silently matches zero rows.
-/

namespace Obs

/-- Finite rationals use the raw normalised-fraction constructor so that
concrete values kernel-evaluate under `decide`. -/
def qFifth20 : ℚ := ⟨1, 20, by simp, by simp⟩

/-- The alert threshold constant `0.05` of the source, written as an exact
rational. -/
theorem qFifth20_eq : qFifth20 = 0.05 := by
  rw [qFifth20, Rat.mk'_eq_divInt, Rat.divInt_eq_div]
  norm_num

/-- A metric value as stored and read back through the `REAL` column: an
exact finite rational or one of the two infinities.  (A Python NaN is
bound as SQL `NULL` by the sqlite3 driver and so never appears as a
stored float value; NULL-valued rows are outside this embedding.) -/
inductive Val where
  | fin (q : ℚ)
  | inf
  | ninf
deriving DecidableEq

/-- IEEE-754 strict `>` on modelled float values: `inf` is above every
finite value, `ninf` below. -/
def Val.gt : Val → Val → Bool
  | .fin a, .fin b => decide (b < a)
  | .fin _, .ninf => true
  | .inf, .fin _ => true
  | .inf, .ninf => true
  | _, _ => false

/-- One row of the `metrics` table. -/
structure MetricRow where
  id : String
  name : String
  value : Val
  labels : List (String × String)
  timestamp : Int
  type : String
deriving DecidableEq

/-- One row of the `spans` table. -/
structure SpanRow where
  trace_id : String
  span_id : String
  parent_span_id : Option String
  service : String
  operation : String
  start_ts : Int
  end_ts : Option Int
  status : String
  tags : List (String × String)
deriving DecidableEq

/-- One row of the `logs` table. -/
structure LogRow where
  id : String
  service : String
  level : String
  message : String
  timestamp : Int
  trace_id : Option String
  fields : List (String × String)
deriving DecidableEq

/-- The SQLite store: the three tables, each in insertion (rowid) order. -/
structure State where
  metrics : List MetricRow
  spans : List SpanRow
  logs : List LogRow
deriving DecidableEq

/-- The error taxonomy of the specification (§7). -/
inductive ObsError where
  | storageUnavailable
  | notFound
  | duplicateKey
  | invalidValue
deriving DecidableEq

/-- One violation reported by `alert_rules`. -/
structure Violation where
  metric : String
  value : Val
  threshold : ℚ
  severity : String
deriving DecidableEq

/-- An entry of the waterfall view assembled by `get_trace`. -/
structure WaterfallEntry where
  service : String
  operation : String
  duration_ms : Int
  status : String
deriving DecidableEq

/-- The result of `get_trace`. -/
structure TraceResult where
  trace_id : String
  spans : List SpanRow
  waterfall : List WaterfallEntry
deriving DecidableEq

/-- The dashboard assembled by `service_dashboard`.  Each metric field is
`Option`-valued: `none` models the JSON `null` of a missing metric. -/
structure Dashboard where
  service : String
  requests_per_minute : Option Val
  error_rate : Option Val
  p50_latency : Option Val
  p95_latency : Option Val
  p99_latency : Option Val
  recent_errors : List LogRow
deriving DecidableEq

/-! ### String matching

`alert_rules` uses the Python `in` operator (case-sensitive substring);
`get_metrics` builds a SQL `LIKE '%...%'` pattern, which SQLite matches
case-insensitively on ASCII letters, with `%` and `_` as wildcards. -/

/-- Case-sensitive list-prefix test (Python `str.startswith` on one
position, the building block of the `in` operator). -/
def csPref : List Char → List Char → Bool
  | [], _ => true
  | _ :: _, [] => false
  | a :: as, b :: bs => a == b && csPref as bs

/-- Python's `in` operator on strings: case-sensitive substring
occurrence. -/
def occursIn (p : List Char) : List Char → Bool
  | [] => csPref p []
  | c :: s => csPref p (c :: s) || occursIn p s

/-- ASCII lower-casing, the folding SQLite's default `LIKE` applies. -/
def lowerChar (c : Char) : Char :=
  if 'A' ≤ c ∧ c ≤ 'Z' then Char.ofNat (c.toNat + 32) else c

/-- Character comparison of SQLite `LIKE`: ASCII-case-insensitive. -/
def likeChar (p c : Char) : Bool := lowerChar p == lowerChar c

/-- SQLite `LIKE` pattern matching (default, no ESCAPE): `%` matches any
(possibly empty) sequence — expressed as matching the rest of the pattern
against some suffix — `_` matches any single character, and any other
character matches ASCII-case-insensitively. -/
def likeMatch : List Char → List Char → Bool
  | [], s => s.isEmpty
  | p :: ps, s =>
    if p = '%' then s.tails.any fun t => likeMatch ps t
    else
      match s with
      | [] => false
      | c :: s' => (if p = '_' then true else likeChar p c) && likeMatch ps s'

/-- Pointwise match of a `%`-free `LIKE` fragment against a character
list: `_` matches any single character, anything else matches
ASCII-case-insensitively. -/
def wildEq : List Char → List Char → Bool
  | [], [] => true
  | a :: as, b :: bs => (if a = '_' then true else likeChar a b) && wildEq as bs
  | _, _ => false

/-- A `LIKE` fragment containing no `%` (it may still contain the
single-character wildcard `_`). -/
def noPct (p : List Char) : Bool := p.all fun c => ¬ c = '%'

/-- The pattern `get_metrics` builds: `f"%⟨name⟩%"`. -/
def likePat (n : String) : List Char := '%' :: (n.data ++ ['%'])

/-! ### Ingestion API -/

/-- `record_metric`: generates an id (oracle input `newId`), stamps the
current time, inserts the row, returns the id.  The source performs no
validation of `name` or `value`.  The insert stores the bound value
unchanged for every member of `Val` (finite values and infinities
round-trip through the `REAL` column); a Python NaN argument — which the
sqlite3 driver would bind as SQL `NULL` — is not representable in `Val`
and is outside this embedding. -/
def recordMetric (st : State) (now : Int) (newId name : String) (value : Val)
    (labels : List (String × String)) (ty : String) :
    Except ObsError (String × State) :=
  Except.ok (newId,
    { st with metrics := st.metrics ++ [⟨newId, name, value, labels, now, ty⟩] })

/-- `increment`: sugar for `record_metric(name, 1.0, labels, "counter")`. -/
def increment (st : State) (now : Int) (newId name : String)
    (labels : List (String × String)) : Except ObsError (String × State) :=
  recordMetric st now newId name (Val.fin 1) labels "counter"

/-- `start_span`: uses the supplied `trace_id` or a fresh one (oracle input
`genTraceId`), generates `genSpanId`, inserts the span with `end_ts = NULL`,
`status = "ok"`, empty tags. -/
def startSpan (st : State) (now : Int) (genTraceId genSpanId : String)
    (service operation : String) (traceId parent : Option String) :
    String × State :=
  let tid := traceId.getD genTraceId
  (genSpanId,
    { st with spans := st.spans ++
        [⟨tid, genSpanId, parent, service, operation, now, none, "ok", []⟩] })

/-- `end_span`: `UPDATE spans SET end_ts = now, status, tags WHERE
span_id = ?`.  A zero-row match is not an error in SQLite, so the
translated body never reaches the `Except` error channel. -/
def endSpan (st : State) (now : Int) (spanId status : String)
    (tags : List (String × String)) : Except ObsError State :=
  Except.ok
    { st with spans := st.spans.map fun s =>
        if s.span_id = spanId then
          { s with end_ts := some now, status := status, tags := tags }
        else s }

/-! ### Query layer -/

/-- The window predicate `timestamp > now - minutes`: one minute is
60000 ms. -/
def inWindow (now sinceMinutes ts : Int) : Bool :=
  decide (ts > now - sinceMinutes * 60000)

/-- `get_metrics`: window filter plus optional `name LIKE '%name%'`.
Python's `if name:` skips the filter for `None` and for the empty
string. -/
def getMetrics (st : State) (now : Int) (name : Option String)
    (sinceMinutes : Int) : List MetricRow :=
  match name with
  | none => st.metrics.filter fun m => inWindow now sinceMinutes m.timestamp
  | some n =>
    if n = "" then st.metrics.filter fun m => inWindow now sinceMinutes m.timestamp
    else (st.metrics.filter fun m => inWindow now sinceMinutes m.timestamp).filter
      fun m => likeMatch (likePat n) m.name.data

/-- The `ORDER BY timestamp DESC` relation on log rows. -/
def logDesc (a b : LogRow) : Prop := b.timestamp ≤ a.timestamp

instance : DecidableRel logDesc := fun _ _ => Int.decLe _ _

instance : IsTotal LogRow logDesc := ⟨fun a b => Int.le_total b.timestamp a.timestamp⟩

instance : IsTrans LogRow logDesc := ⟨fun _ _ _ h h' => Int.le_trans h' h⟩

/-- `get_logs`: window filter, optional exact service/level filters,
`ORDER BY timestamp DESC LIMIT limit`. -/
def getLogs (st : State) (now : Int) (service level : Option String)
    (sinceMinutes : Int) (limit : Nat) : List LogRow :=
  let rows := st.logs.filter fun l =>
    inWindow now sinceMinutes l.timestamp
    && (match service with
        | none => true
        | some s => if s = "" then true else l.service == s)
    && (match level with
        | none => true
        | some lv => if lv = "" then true else l.level == lv)
  (rows.insertionSort logDesc).take limit

/-- The `ORDER BY start_ts ASC` relation on span rows. -/
def spanAsc (a b : SpanRow) : Prop := a.start_ts ≤ b.start_ts

instance : DecidableRel spanAsc := fun _ _ => Int.decLe _ _

instance : IsTotal SpanRow spanAsc := ⟨fun a b => Int.le_total a.start_ts b.start_ts⟩

instance : IsTrans SpanRow spanAsc := ⟨fun _ _ _ h h' => Int.le_trans h h'⟩

/-- `get_trace`: loads the spans of the trace ordered by `start_ts`
ascending and assembles the waterfall view; an in-flight span's duration
is measured against the current time. -/
def getTrace (st : State) (now : Int) (traceId : String) : TraceResult :=
  let spans := (st.spans.filter fun s => s.trace_id == traceId).insertionSort
    spanAsc
  { trace_id := traceId
    spans := spans
    waterfall := spans.map fun s =>
      { service := s.service
        operation := s.operation
        duration_ms := s.end_ts.getD now - s.start_ts
        status := s.status } }

/-- `_find_metric`: the value of the first row of the scan whose name is
exactly `name`, `None` when there is none. -/
def findMetric (metrics : List MetricRow) (name : String) : Option Val :=
  (metrics.find? fun m => m.name == name).map (·.value)

/-- `service_dashboard`: metrics of the last 60 minutes whose name matches
`LIKE '%service%'`, point lookups by exact name, and the 10 most recent
error logs. -/
def serviceDashboard (st : State) (now : Int) (service : String) :
    Dashboard :=
  let metrics := getMetrics st now (some service) 60
  { service := service
    requests_per_minute := findMetric metrics (service ++ ".requests_per_minute")
    error_rate := findMetric metrics (service ++ ".error_rate")
    p50_latency := findMetric metrics (service ++ ".p50_latency_ms")
    p95_latency := findMetric metrics (service ++ ".p95_latency_ms")
    p99_latency := findMetric metrics (service ++ ".p99_latency_ms")
    recent_errors := getLogs st now (some service) (some "error") 60 10 }

/-- The two fixed alert rules applied to one metric row, in source order:
the error-rate rule's violation (if any) precedes the latency rule's. -/
def ruleViolations (m : MetricRow) : List Violation :=
  (if occursIn "error_rate".data m.name.data && m.value.gt (Val.fin qFifth20)
   then [⟨m.name, m.value, qFifth20, "high"⟩] else [])
  ++
  (if occursIn "p99_latency".data m.name.data && m.value.gt (Val.fin 500)
   then [⟨m.name, m.value, 500, "medium"⟩] else [])

/-- `alert_rules`: scans the metrics of the last 5 minutes and collects the
violations of every rule for every row. -/
def alertRules (st : State) (now : Int) : List Violation :=
  (getMetrics st now none 5).flatMap ruleViolations

/-! ### Characterisations of the string matchers -/

theorem csPref_iff (p s : List Char) : csPref p s = true ↔ ∃ t, s = p ++ t := by
  induction p generalizing s with
  | nil => simp [csPref]
  | cons a as ih =>
    cases s with
    | nil =>
      simp only [csPref, List.cons_append, Bool.false_eq_true, false_iff]
      rintro ⟨t, ht⟩
      exact List.noConfusion ht
    | cons b bs =>
      simp only [csPref, Bool.and_eq_true, beq_iff_eq, ih, List.cons_append]
      constructor
      · rintro ⟨rfl, t, rfl⟩
        exact ⟨t, rfl⟩
      · rintro ⟨t, ht⟩
        obtain ⟨rfl, rfl⟩ := List.cons.inj ht
        exact ⟨rfl, t, rfl⟩

theorem occursIn_iff (p s : List Char) :
    occursIn p s = true ↔ ∃ a b, s = a ++ p ++ b := by
  induction s with
  | nil =>
    simp only [occursIn, csPref_iff]
    constructor
    · rintro ⟨t, ht⟩
      obtain ⟨rfl, rfl⟩ := List.append_eq_nil.mp ht.symm
      exact ⟨[], [], rfl⟩
    · rintro ⟨a, b, hab⟩
      have h := hab.symm
      rw [List.append_eq_nil] at h
      obtain ⟨h1, rfl⟩ := h
      rw [List.append_eq_nil] at h1
      obtain ⟨rfl, rfl⟩ := h1
      exact ⟨[], rfl⟩
  | cons c s ih =>
    rw [occursIn, Bool.or_eq_true, csPref_iff, ih]
    constructor
    · rintro (⟨t, ht⟩ | ⟨a, b, rfl⟩)
      · exact ⟨[], t, by simpa using ht⟩
      · exact ⟨c :: a, b, rfl⟩
    · rintro ⟨a, b, hab⟩
      cases a with
      | nil =>
        exact Or.inl ⟨b, by simpa using hab⟩
      | cons a0 as =>
        obtain ⟨rfl, rfl⟩ := List.cons.inj hab
        exact Or.inr ⟨as, b, rfl⟩

theorem likeMatch_pct (ps s : List Char) :
    likeMatch ('%' :: ps) s = true ↔ ∃ a t, s = a ++ t ∧ likeMatch ps t = true := by
  rw [show likeMatch ('%' :: ps) s = s.tails.any fun t => likeMatch ps t from by
    simp [likeMatch]]
  rw [List.any_eq_true]
  constructor
  · rintro ⟨t, hmem, ht⟩
    obtain ⟨a, rfl⟩ := (List.mem_tails t s).mp hmem
    exact ⟨a, t, rfl, ht⟩
  · rintro ⟨a, t, rfl, ht⟩
    exact ⟨t, (List.mem_tails t (a ++ t)).mpr ⟨a, rfl⟩, ht⟩

theorem likeMatch_plain_pct (p : List Char) (hp : noPct p = true) (s : List Char) :
    likeMatch (p ++ ['%']) s = true ↔ ∃ b c, s = b ++ c ∧ wildEq p b = true := by
  induction p generalizing s with
  | nil =>
    simp only [List.nil_append]
    rw [likeMatch_pct]
    constructor
    · intro _
      exact ⟨[], s, rfl, rfl⟩
    · intro _
      exact ⟨s, [], by simp, rfl⟩
  | cons ch p' ih =>
    have hpc : ¬ ch = '%' := by
      simpa [noPct] using (List.all_eq_true.mp hp ch (List.mem_cons_self ch p'))
    have hp' : noPct p' = true := by
      rw [noPct, List.all_eq_true]
      intro c hc
      simpa using List.all_eq_true.mp hp c (List.mem_cons_of_mem ch hc)
    cases s with
    | nil =>
      simp only [List.cons_append, likeMatch, if_neg hpc, Bool.false_eq_true, false_iff]
      rintro ⟨b, c, hbc, hci⟩
      cases b with
      | nil => exact Bool.noConfusion hci
      | cons b0 bs => exact List.noConfusion hbc
    | cons c s' =>
      have hstep : likeMatch ((ch :: p') ++ ['%']) (c :: s')
          = ((if ch = '_' then true else likeChar ch c) && likeMatch (p' ++ ['%']) s') := by
        simp [likeMatch, if_neg hpc]
      rw [hstep, Bool.and_eq_true, ih hp']
      constructor
      · rintro ⟨hc, b, cc, rfl, hci⟩
        exact ⟨c :: b, cc, rfl, by rw [wildEq, Bool.and_eq_true]; exact ⟨hc, hci⟩⟩
      · rintro ⟨b, cc, hbc, hci⟩
        cases b with
        | nil => exact Bool.noConfusion hci
        | cons b0 bs =>
          obtain ⟨rfl, rfl⟩ := List.cons.inj hbc
          rw [wildEq, Bool.and_eq_true] at hci
          exact ⟨hci.1, bs, cc, rfl, hci.2⟩

/-- For a `%`-free fragment `n`, the pattern `f"%⟨n⟩%"` built by
`get_metrics` matches exactly the strings containing a fragment that
matches `n` character-wise (`_` wild, letters ASCII-case-insensitive). -/
theorem likeMatch_likePat_iff (n : String) (s : List Char)
    (h : noPct n.data = true) :
    likeMatch (likePat n) s = true
      ↔ ∃ a b c, s = a ++ b ++ c ∧ wildEq n.data b = true := by
  rw [likePat, likeMatch_pct]
  constructor
  · rintro ⟨a, t, rfl, ht⟩
    obtain ⟨b, c, rfl, hci⟩ := (likeMatch_plain_pct n.data h t).mp ht
    exact ⟨a, b, c, by simp, hci⟩
  · rintro ⟨a, b, c, rfl, hci⟩
    exact ⟨a, b ++ c, by simp, (likeMatch_plain_pct n.data h (b ++ c)).mpr ⟨b, c, rfl, hci⟩⟩

/-! ### Membership in query results -/

theorem mem_getMetrics_none (st : State) (now w : Int) (m : MetricRow) :
    m ∈ getMetrics st now none w ↔
      m ∈ st.metrics ∧ now - m.timestamp < w * 60000 := by
  unfold getMetrics
  simp only [List.mem_filter, inWindow, decide_eq_true_eq]
  constructor <;> rintro ⟨h1, h2⟩ <;> exact ⟨h1, by omega⟩

theorem mem_getMetrics_some (st : State) (now : Int) (n : String) (w : Int)
    (m : MetricRow) (hn : noPct n.data = true) :
    m ∈ getMetrics st now (some n) w ↔
      m ∈ st.metrics ∧ now - m.timestamp < w * 60000
        ∧ ∃ a b c, m.name.data = a ++ b ++ c ∧ wildEq n.data b = true := by
  show m ∈ (if n = "" then _ else _) ↔ _
  by_cases h : n = ""
  · rw [if_pos h]
    subst h
    simp only [List.mem_filter, inWindow, decide_eq_true_eq]
    constructor
    · rintro ⟨h1, h2⟩
      exact ⟨h1, by omega, m.name.data, [], [], by simp, rfl⟩
    · rintro ⟨h1, h2, _⟩
      exact ⟨h1, by omega⟩
  · rw [if_neg h]
    simp only [List.mem_filter, inWindow, decide_eq_true_eq,
      likeMatch_likePat_iff n m.name.data hn]
    constructor
    · rintro ⟨⟨h1, h2⟩, h3⟩
      exact ⟨h1, by omega, h3⟩
    · rintro ⟨h1, h2, h3⟩
      exact ⟨⟨h1, by omega⟩, h3⟩

theorem mem_ruleViolations (m : MetricRow) (v : Violation) :
    v ∈ ruleViolations m ↔
      (occursIn "error_rate".data m.name.data = true
        ∧ m.value.gt (Val.fin qFifth20) = true
        ∧ v = ⟨m.name, m.value, qFifth20, "high"⟩)
      ∨ (occursIn "p99_latency".data m.name.data = true
        ∧ m.value.gt (Val.fin 500) = true
        ∧ v = ⟨m.name, m.value, 500, "medium"⟩) := by
  unfold ruleViolations
  cases h1 : occursIn "error_rate".data m.name.data
  <;> cases h2 : m.value.gt (Val.fin qFifth20)
  <;> cases h3 : occursIn "p99_latency".data m.name.data
  <;> cases h4 : m.value.gt (Val.fin 500)
  <;> simp [h1, h2, h3, h4]

/-! ### Claim C1: the alert rule set -/

/-- C1 (confirmed).  A violation is emitted by `alert_rules` iff some
metric of the last 5 minutes justifies it: the high/0.05 violation exactly
for metrics whose name contains the substring `"error_rate"` (Python `in`,
case-sensitive) with value strictly above 0.05, the medium/500 violation
exactly for names containing `"p99_latency"` with value strictly above
500; both rules are checked independently per metric, values exactly at a
threshold never trigger (strict `>` is built into `Val.gt`), and no other
violations are produced. -/
theorem alertRules_mem_iff (st : State) (now : Int) (v : Violation) :
    v ∈ alertRules st now ↔
      ∃ m, m ∈ st.metrics ∧ now - m.timestamp < 5 * 60000
        ∧ (((∃ a b, m.name.data = a ++ "error_rate".data ++ b)
              ∧ m.value.gt (Val.fin qFifth20) = true
              ∧ v = ⟨m.name, m.value, qFifth20, "high"⟩)
          ∨ ((∃ a b, m.name.data = a ++ "p99_latency".data ++ b)
              ∧ m.value.gt (Val.fin 500) = true
              ∧ v = ⟨m.name, m.value, 500, "medium"⟩)) := by
  unfold alertRules
  rw [List.mem_flatMap]
  constructor
  · rintro ⟨m, hm, hv⟩
    obtain ⟨hmem, hwin⟩ := (mem_getMetrics_none st now 5 m).mp hm
    refine ⟨m, hmem, hwin, ?_⟩
    rcases (mem_ruleViolations m v).mp hv with ⟨h1, h2, h3⟩ | ⟨h1, h2, h3⟩
    · exact Or.inl ⟨(occursIn_iff _ _).mp h1, h2, h3⟩
    · exact Or.inr ⟨(occursIn_iff _ _).mp h1, h2, h3⟩
  · rintro ⟨m, hmem, hwin, hcase⟩
    refine ⟨m, (mem_getMetrics_none st now 5 m).mpr ⟨hmem, hwin⟩, ?_⟩
    rw [mem_ruleViolations]
    rcases hcase with ⟨h1, h2, h3⟩ | ⟨h1, h2, h3⟩
    · exact Or.inl ⟨(occursIn_iff _ _).mpr h1, h2, h3⟩
    · exact Or.inr ⟨(occursIn_iff _ _).mpr h1, h2, h3⟩

/-- Concrete store for the C1 witness. -/
def stW1 : State := ⟨[⟨"i", "gateway.error_rate", Val.fin 1, [], 0, "gauge"⟩], [], []⟩

/-- Witness for C1: at a concrete store, the characterisation produces the
high-severity violation of the spec's example. -/
theorem alertRules_mem_iff_witness :
    (⟨"gateway.error_rate", Val.fin 1, qFifth20, "high"⟩ : Violation)
      ∈ alertRules stW1 0 :=
  (alertRules_mem_iff stW1 0 _).mpr
    ⟨⟨"i", "gateway.error_rate", Val.fin 1, [], 0, "gauge"⟩, by decide, by decide,
      Or.inl ⟨⟨"gateway.".data, [], by decide⟩, by decide, rfl⟩⟩

/-! ### Claim C2: `get_metrics` window and name filter -/

/-- Concrete store for the C2 counterexample: a metric whose name is the
upper-cased variant of the query argument. -/
def stC2 : State := ⟨[⟨"a", "A.ERROR_RATE", Val.fin 1, [], 0, "gauge"⟩], [], []⟩

/-- C2 counterexample: `get_metrics(name="error_rate")` returns a metric
whose name does not contain `"error_rate"` as a case-matching substring,
because SQL `LIKE` is ASCII-case-insensitive; the claim's case-sensitivity
is false on the code. -/
theorem getMetrics_case_insensitive_counterexample :
    (⟨"a", "A.ERROR_RATE", Val.fin 1, [], 0, "gauge"⟩ : MetricRow)
      ∈ getMetrics stC2 0 (some "error_rate") 60
    ∧ ¬ ∃ a b, "A.ERROR_RATE".data = a ++ "error_rate".data ++ b := by
  constructor
  · decide
  · intro h
    have h' := (occursIn_iff "error_rate".data "A.ERROR_RATE".data).mpr
      (by obtain ⟨a, b, hab⟩ := h; exact ⟨a, b, hab⟩)
    revert h'
    decide

/-- C2 (amended).  For a `%`-free name argument, `get_metrics` returns a
stored metric iff it lies strictly inside the window
(`now - timestamp < w` minutes; a metric exactly at the cutoff is
consistently excluded) and, when the name argument is given, a fragment of
the metric's name matches the argument under SQL `LIKE '%name%'`
semantics: character-wise ASCII-case-insensitive, with `_` in the
argument matching any single character — not the case-sensitive literal
substring the claim states. -/
theorem getMetrics_mem_spec (st : State) (now : Int) (n : String) (w : Int)
    (m : MetricRow) (hn : noPct n.data = true) :
    (m ∈ getMetrics st now (some n) w ↔
      m ∈ st.metrics ∧ now - m.timestamp < w * 60000
        ∧ ∃ a b c, m.name.data = a ++ b ++ c ∧ wildEq n.data b = true)
    ∧ (m ∈ getMetrics st now none w ↔
        m ∈ st.metrics ∧ now - m.timestamp < w * 60000) :=
  ⟨mem_getMetrics_some st now n w m hn, mem_getMetrics_none st now w m⟩

/-- Witness for C2: the amended characterisation applied at the
counterexample store returns the upper-cased metric for the
lower-cased query. -/
theorem getMetrics_mem_spec_witness :
    (⟨"a", "A.ERROR_RATE", Val.fin 1, [], 0, "gauge"⟩ : MetricRow)
      ∈ getMetrics stC2 7 (some "error_rate") 60 :=
  (getMetrics_mem_spec stC2 7 "error_rate" 60 _ (by decide)).1.mpr
    ⟨by decide, by decide, "A.".data, "ERROR_RATE".data, [], by decide, by decide⟩

/-! ### Claim C3: the service dashboard -/

theorem findMetric_eq_some_iff (L : List MetricRow) (n : String) (v : Val) :
    findMetric L n = some v ↔
      ∃ pre m post, L = pre ++ m :: post ∧ m.name = n ∧ m.value = v
        ∧ ∀ m' ∈ pre, m'.name ≠ n := by
  unfold findMetric
  rw [Option.map_eq_some']
  constructor
  · rintro ⟨m, hf, rfl⟩
    rw [List.find?_eq_some] at hf
    obtain ⟨hpn, pre, post, rfl, hpre⟩ := hf
    refine ⟨pre, m, post, rfl, by simpa using hpn, rfl, ?_⟩
    intro m' hm'
    simpa using hpre m' hm'
  · rintro ⟨pre, m, post, rfl, hname, hval, hpre⟩
    refine ⟨m, ?_, hval⟩
    rw [List.find?_eq_some]
    exact ⟨by simpa using hname, pre, post, rfl, fun a ha => by simpa using hpre a ha⟩

theorem findMetric_eq_none_iff (L : List MetricRow) (n : String) :
    findMetric L n = none ↔ ∀ m ∈ L, m.name ≠ n := by
  unfold findMetric
  rw [Option.map_eq_none', List.find?_eq_none]
  constructor <;> intro h m hm <;> simpa using h m hm

/-- Concrete store for the C3 counterexample: two error-rate metrics in
the 60-minute window, value 1 inserted first, value 2 inserted later
(more recently). -/
def stC3 : State :=
  ⟨[⟨"a", "gateway.error_rate", Val.fin 1, [], 0, "gauge"⟩,
    ⟨"b", "gateway.error_rate", Val.fin 2, [], 1000, "gauge"⟩], [], []⟩

/-- C3 counterexample: `service_dashboard` reports the first-inserted
value 1, not the most recently stored value 2, because `_find_metric`
takes the first match of the unsorted storage scan. -/
theorem serviceDashboard_recency_counterexample :
    (serviceDashboard stC3 2000 "gateway").error_rate = some (Val.fin 1)
    ∧ (serviceDashboard stC3 2000 "gateway").error_rate ≠ some (Val.fin 2) := by
  exact ⟨by decide, by decide⟩

/-- C3 (amended).  Each dashboard field resolves to the value of the
*first* metric in storage-scan (insertion) order — not the most recently
stored one — among the window's metrics passing the `LIKE '%service%'`
filter, whose name equals the code's lookup name; the latency lookups use
the `_ms`-suffixed names (`p50_latency_ms`, `p95_latency_ms`,
`p99_latency_ms`), not the bare field names.  A field with no matching
metric is `none` (never 0), and on an empty store all five fields are
`none` and `recent_errors = []`. -/
theorem serviceDashboard_fields_spec (st : State) (now : Int) (s : String) :
    (∀ v, (serviceDashboard st now s).requests_per_minute = some v ↔
      ∃ pre m post, getMetrics st now (some s) 60 = pre ++ m :: post
        ∧ m.name = s ++ ".requests_per_minute" ∧ m.value = v
        ∧ ∀ m' ∈ pre, m'.name ≠ s ++ ".requests_per_minute")
    ∧ ((serviceDashboard st now s).requests_per_minute = none ↔
        ∀ m ∈ getMetrics st now (some s) 60, m.name ≠ s ++ ".requests_per_minute")
    ∧ (∀ v, (serviceDashboard st now s).error_rate = some v ↔
      ∃ pre m post, getMetrics st now (some s) 60 = pre ++ m :: post
        ∧ m.name = s ++ ".error_rate" ∧ m.value = v
        ∧ ∀ m' ∈ pre, m'.name ≠ s ++ ".error_rate")
    ∧ ((serviceDashboard st now s).error_rate = none ↔
        ∀ m ∈ getMetrics st now (some s) 60, m.name ≠ s ++ ".error_rate")
    ∧ (∀ v, (serviceDashboard st now s).p50_latency = some v ↔
      ∃ pre m post, getMetrics st now (some s) 60 = pre ++ m :: post
        ∧ m.name = s ++ ".p50_latency_ms" ∧ m.value = v
        ∧ ∀ m' ∈ pre, m'.name ≠ s ++ ".p50_latency_ms")
    ∧ ((serviceDashboard st now s).p50_latency = none ↔
        ∀ m ∈ getMetrics st now (some s) 60, m.name ≠ s ++ ".p50_latency_ms")
    ∧ (∀ v, (serviceDashboard st now s).p95_latency = some v ↔
      ∃ pre m post, getMetrics st now (some s) 60 = pre ++ m :: post
        ∧ m.name = s ++ ".p95_latency_ms" ∧ m.value = v
        ∧ ∀ m' ∈ pre, m'.name ≠ s ++ ".p95_latency_ms")
    ∧ ((serviceDashboard st now s).p95_latency = none ↔
        ∀ m ∈ getMetrics st now (some s) 60, m.name ≠ s ++ ".p95_latency_ms")
    ∧ (∀ v, (serviceDashboard st now s).p99_latency = some v ↔
      ∃ pre m post, getMetrics st now (some s) 60 = pre ++ m :: post
        ∧ m.name = s ++ ".p99_latency_ms" ∧ m.value = v
        ∧ ∀ m' ∈ pre, m'.name ≠ s ++ ".p99_latency_ms")
    ∧ ((serviceDashboard st now s).p99_latency = none ↔
        ∀ m ∈ getMetrics st now (some s) 60, m.name ≠ s ++ ".p99_latency_ms")
    ∧ (st.metrics = [] → st.logs = [] →
        serviceDashboard st now s = ⟨s, none, none, none, none, none, []⟩) := by
  refine ⟨fun v => findMetric_eq_some_iff _ _ v, findMetric_eq_none_iff _ _,
    fun v => findMetric_eq_some_iff _ _ v, findMetric_eq_none_iff _ _,
    fun v => findMetric_eq_some_iff _ _ v, findMetric_eq_none_iff _ _,
    fun v => findMetric_eq_some_iff _ _ v, findMetric_eq_none_iff _ _,
    fun v => findMetric_eq_some_iff _ _ v, findMetric_eq_none_iff _ _, ?_⟩
  intro hm hl
  obtain ⟨ms, sps, ls⟩ := st
  cases hm
  cases hl
  simp [serviceDashboard, getMetrics, getLogs, findMetric, List.insertionSort]

/-- Witness for C3: the amended description applied to an empty store
yields the all-null dashboard with no recent errors. -/
theorem serviceDashboard_fields_spec_witness :
    serviceDashboard ⟨[], [], []⟩ 5 "gateway"
      = ⟨"gateway", none, none, none, none, none, []⟩ :=
  (serviceDashboard_fields_spec ⟨[], [], []⟩ 5
    "gateway").2.2.2.2.2.2.2.2.2.2 rfl rfl

/-! ### Claim C4: trace reconstruction returns the trace's spans sorted -/

/-- C4 (confirmed).  `get_trace` returns exactly the stored spans carrying
the trace id (as a permutation of the filtered store), sorted by start
time ascending; the result is insertion-order independent up to
permutation, and an unknown trace id yields `spans = []` as a normal
outcome. -/
theorem getTrace_spans_spec (st : State) (now : Int) (tid : String) :
    ((getTrace st now tid).spans.Perm (st.spans.filter fun s => s.trace_id == tid))
    ∧ (getTrace st now tid).spans.Sorted spanAsc
    ∧ (∀ st' : State, st'.spans.Perm st.spans →
        (getTrace st' now tid).spans.Perm ((getTrace st now tid).spans))
    ∧ ((getTrace st now tid).spans = [] ↔ ∀ s ∈ st.spans, s.trace_id ≠ tid) := by
  have hperm : (getTrace st now tid).spans.Perm
      (st.spans.filter fun s => s.trace_id == tid) :=
    List.perm_insertionSort spanAsc _
  refine ⟨hperm, List.sorted_insertionSort spanAsc _, ?_, ?_⟩
  · intro st' hp
    exact (List.perm_insertionSort spanAsc _).trans ((hp.filter _).trans hperm.symm)
  · rw [← List.length_eq_zero, hperm.length_eq, List.length_eq_zero,
      List.filter_eq_nil_iff]
    simp

/-- Concrete stores for the C4 witness: the same two spans of one trace,
inserted in the two possible orders. -/
def stC4 : State :=
  ⟨[], [⟨"t", "s1", none, "svc", "op", 5, none, "ok", []⟩,
        ⟨"t", "s2", none, "svc", "op", 3, some 9, "ok", []⟩], []⟩

/-- The C4 witness's second store: `stC4` with the insertion order
swapped. -/
def stC4' : State :=
  ⟨[], [⟨"t", "s2", none, "svc", "op", 3, some 9, "ok", []⟩,
        ⟨"t", "s1", none, "svc", "op", 5, none, "ok", []⟩], []⟩

/-- Witness for C4: the two insertion orders give permutation-equal
results. -/
theorem getTrace_spans_spec_witness :
    (getTrace stC4' 10 "t").spans.Perm ((getTrace stC4 10 "t").spans) :=
  (getTrace_spans_spec stC4 10 "t").2.2.1 stC4' (by decide)

/-! ### Claim C5: waterfall durations -/

theorem getTrace_waterfall_getElem (st : State) (now : Int) (tid : String)
    (i : ℕ) (sp : SpanRow) (hsp : (getTrace st now tid).spans[i]? = some sp) :
    (getTrace st now tid).waterfall[i]?
      = some ⟨sp.service, sp.operation, sp.end_ts.getD now - sp.start_ts,
              sp.status⟩ := by
  show ((getTrace st now tid).spans.map _)[i]? = _
  rw [List.getElem?_map, hsp]
  rfl

/-- C5 (confirmed).  For the `i`-th span of a trace: when `end` is set the
waterfall duration equals `end - start` at every call time (identical
across successive calls, and nonnegative whenever `end ≥ start`, which
`end_span` guarantees under a monotone clock since it stamps `end` with
the call time — last conjunct); when `end` is null the duration equals
`now - start` of the current call, so two successive calls at increasing
clock readings see strictly increasing durations for an in-flight span. -/
theorem getTrace_duration_spec (st : State) (tid : String) (now1 now2 : Int)
    (h12 : now1 < now2) (i : ℕ) (sp : SpanRow)
    (hsp : (getTrace st now1 tid).spans[i]? = some sp) :
    (getTrace st now2 tid).spans[i]? = some sp
    ∧ (∀ e, sp.end_ts = some e →
        (getTrace st now1 tid).waterfall[i]?.map WaterfallEntry.duration_ms
            = some (e - sp.start_ts)
          ∧ (getTrace st now2 tid).waterfall[i]?.map WaterfallEntry.duration_ms
            = some (e - sp.start_ts)
          ∧ (sp.start_ts ≤ e → 0 ≤ e - sp.start_ts))
    ∧ (sp.end_ts = none →
        (getTrace st now1 tid).waterfall[i]?.map WaterfallEntry.duration_ms
            = some (now1 - sp.start_ts)
          ∧ (getTrace st now2 tid).waterfall[i]?.map WaterfallEntry.duration_ms
            = some (now2 - sp.start_ts)
          ∧ now1 - sp.start_ts < now2 - sp.start_ts)
    ∧ (∀ status tags st2, endSpan st now1 sp.span_id status tags = Except.ok st2 →
        ∀ s2 ∈ st2.spans, s2.span_id = sp.span_id → s2.end_ts = some now1) := by
  have hsp2 : (getTrace st now2 tid).spans[i]? = some sp := hsp
  have hW1 := getTrace_waterfall_getElem st now1 tid i sp hsp
  have hW2 := getTrace_waterfall_getElem st now2 tid i sp hsp2
  refine ⟨hsp2, ?_, ?_, ?_⟩
  · intro e he
    refine ⟨?_, ?_, fun hle => by omega⟩
    · rw [hW1]; simp [he]
    · rw [hW2]; simp [he]
  · intro he
    refine ⟨?_, ?_, by omega⟩
    · rw [hW1]; simp [he]
    · rw [hW2]; simp [he]
  · intro status tags st2 h2 s2 hs2 hid
    have hst2 : st2 = { st with spans := st.spans.map fun s =>
        if s.span_id = sp.span_id then
          { s with end_ts := some now1, status := status, tags := tags }
        else s } := by
      simpa [endSpan] using h2.symm
    subst hst2
    simp only [List.mem_map] at hs2
    obtain ⟨s, _, rfl⟩ := hs2
    by_cases hc : s.span_id = sp.span_id
    · simp [hc]
    · rw [if_neg hc] at hid ⊢
      exact absurd hid hc

/-- Concrete store for the C5 witness: a single in-flight span started at
time 0. -/
def stC5 : State := ⟨[], [⟨"t", "s", none, "svc", "op", 0, none, "ok", []⟩], []⟩

/-- Witness for C5: the in-flight span's duration strictly grows between a
call at time 1 and a call at time 2. -/
theorem getTrace_duration_spec_witness :
    (getTrace stC5 1 "t").waterfall[0]?.map WaterfallEntry.duration_ms
        = some (1 - 0)
      ∧ (getTrace stC5 2 "t").waterfall[0]?.map WaterfallEntry.duration_ms
        = some (2 - 0) := by
  obtain ⟨-, -, h, -⟩ := getTrace_duration_spec stC5 "t" 1 2 (by decide) 0
    ⟨"t", "s", none, "svc", "op", 0, none, "ok", []⟩ (by decide)
  obtain ⟨h1, h2, -⟩ := h rfl
  exact ⟨h1, h2⟩

/-! ### Claim C6: `end_span` on an unknown span id -/

/-- Concrete store for C6: one span, and we end a span id that was never
started. -/
def stC6 : State := ⟨[], [⟨"t", "s1", none, "svc", "op", 0, none, "ok", []⟩], []⟩

/-- C6 counterexample: `end_span` on an unknown span id does *not* fail
with NotFound — the `UPDATE` matches zero rows and the call returns
normally with the store unchanged. -/
theorem endSpan_unknown_counterexample :
    endSpan stC6 5 "ghost" "error" [] = Except.ok stC6 := by
  rfl

/-- C6 (amended).  For a span id never created, `end_span` succeeds
silently as a no-op: no error is raised and no stored record changes. -/
theorem endSpan_unknown_noop (st : State) (now : Int) (sid status : String)
    (tags : List (String × String)) (h : ∀ s ∈ st.spans, s.span_id ≠ sid) :
    endSpan st now sid status tags = Except.ok st := by
  unfold endSpan
  have hmap : (st.spans.map fun s =>
      if s.span_id = sid then
        { s with end_ts := some now, status := status, tags := tags }
      else s) = st.spans := by
    rw [List.map_congr_left fun s hs => if_neg (h s hs)]
    exact List.map_id st.spans
  rw [hmap]

/-- Witness for C6: ending a second unknown id on the concrete store is a
silent no-op. -/
theorem endSpan_unknown_noop_witness :
    endSpan stC6 7 "nobody" "ok" [] = Except.ok stC6 :=
  endSpan_unknown_noop stC6 7 "nobody" "ok" [] (by decide)

/-! ### Claim C7: `record_metric` and non-finite values -/

/-- C7 counterexample: recording an infinite value does *not* fail with
InvalidValue and does write to storage — the source has no validation at
all, so the call succeeds, the `+inf` metric row is inserted, and an id
is returned; this refutes the claim's "fails with InvalidValue whenever
value is NaN or infinite, and in that case nothing is written". -/
theorem recordMetric_inf_counterexample :
    recordMetric ⟨[], [], []⟩ 0 "m1" "x" Val.inf [] "gauge"
      = Except.ok ("m1", ⟨[⟨"m1", "x", Val.inf, [], 0, "gauge"⟩], [], []⟩) := by
  rfl

/-- C7 (amended).  `record_metric` performs no finiteness validation: for
every value that round-trips through storage — finite or infinite — the
call succeeds, appends exactly one metric row carrying that value,
returns the generated id, and the new row is immediately visible to
`get_metrics` for any positive window.  (A NaN argument is likewise not
rejected — the call succeeds and inserts a row — but the sqlite3 driver
binds NaN as SQL `NULL`, so the stored row carries `NULL` rather than
NaN; that row is outside this embedding's value domain.) -/
theorem recordMetric_no_validation (st : State) (now : Int)
    (newId name : String) (value : Val) (labels : List (String × String))
    (ty : String) (w : Int) (hw : 1 ≤ w) :
    recordMetric st now newId name value labels ty
      = Except.ok (newId,
          { st with metrics :=
              st.metrics ++ [⟨newId, name, value, labels, now, ty⟩] })
    ∧ (⟨newId, name, value, labels, now, ty⟩ : MetricRow)
        ∈ getMetrics
            { st with metrics :=
                st.metrics ++ [⟨newId, name, value, labels, now, ty⟩] }
            now none w := by
  refine ⟨rfl, ?_⟩
  rw [mem_getMetrics_none]
  constructor
  · simp
  · show now - now < w * 60000
    have h1 : (60000 : Int) ≤ w * 60000 := by
      calc (60000 : Int) = 1 * 60000 := by omega
      _ ≤ w * 60000 := by
        apply mul_le_mul_of_nonneg_right hw
        omega
    omega

/-- Witness for C7: recording an infinite value succeeds and the row is
returned by `get_metrics` with a 5-minute window. -/
theorem recordMetric_no_validation_witness :
    (⟨"m2", "y", Val.inf, [], 3, "gauge"⟩ : MetricRow)
      ∈ getMetrics ⟨[⟨"m2", "y", Val.inf, [], 3, "gauge"⟩], [], []⟩ 3 none 5 :=
  (recordMetric_no_validation ⟨[], [], []⟩ 3 "m2" "y" Val.inf [] "gauge" 5
    (by decide)).2

/-! ### Claim C8: `increment` -/

/-- The store after one `increment("x.hits")` at time 0 with id `"a"`. -/
def stHits1 : State := ⟨[⟨"a", "x.hits", Val.fin 1, [], 0, "counter"⟩], [], []⟩

/-- The store after a second `increment("x.hits")` at time 1000 with id
`"b"`. -/
def stHits2 : State :=
  ⟨[⟨"a", "x.hits", Val.fin 1, [], 0, "counter"⟩,
    ⟨"b", "x.hits", Val.fin 1, [], 1000, "counter"⟩], [], []⟩

/-- C8 (confirmed).  `increment` is exactly
`record_metric(name, 1.0, labels, kind=counter)`, and two increments of
`"x.hits"` followed by `get_metrics(name="x.hits")` return two distinct
rows, each with value 1.0 and kind counter — no server-side summation. -/
theorem increment_spec (st : State) (now : Int) (newId name : String)
    (labels : List (String × String)) :
    increment st now newId name labels
      = recordMetric st now newId name (Val.fin 1) labels "counter"
    ∧ increment ⟨[], [], []⟩ 0 "a" "x.hits" [] = Except.ok ("a", stHits1)
    ∧ increment stHits1 1000 "b" "x.hits" [] = Except.ok ("b", stHits2)
    ∧ getMetrics stHits2 2000 (some "x.hits") 60
        = [⟨"a", "x.hits", Val.fin 1, [], 0, "counter"⟩,
           ⟨"b", "x.hits", Val.fin 1, [], 1000, "counter"⟩] := by
  refine ⟨rfl, rfl, rfl, ?_⟩
  decide

/-! ### Claim C9: double `end_span` is last-write-wins -/

/-- C9 (confirmed).  Ending an existing span twice succeeds both times
without error; after the second call every stored span with that id
carries the second call's end timestamp, status and tags (last-write-wins),
and spans with other ids are untouched. -/
theorem endSpan_twice_lastWriteWins (st : State) (now1 now2 : Int)
    (sid s1 s2 : String) (t1 t2 : List (String × String)) :
    ∃ st1 st2,
      endSpan st now1 sid s1 t1 = Except.ok st1
      ∧ endSpan st1 now2 sid s2 t2 = Except.ok st2
      ∧ (∀ sp ∈ st2.spans, sp.span_id = sid →
          sp.end_ts = some now2 ∧ sp.status = s2 ∧ sp.tags = t2)
      ∧ ((∃ sp ∈ st.spans, sp.span_id = sid) →
          ∃ sp ∈ st2.spans, sp.span_id = sid ∧ sp.end_ts = some now2
            ∧ sp.status = s2 ∧ sp.tags = t2)
      ∧ (∀ sp ∈ st2.spans, sp.span_id ≠ sid → sp ∈ st.spans) := by
  refine ⟨_, _, rfl, rfl, ?_, ?_, ?_⟩
  · intro sp hsp hid
    simp only [List.map_map, List.mem_map, Function.comp] at hsp
    obtain ⟨s0, _, rfl⟩ := hsp
    by_cases hc : s0.span_id = sid
    · simp [hc]
    · rw [if_neg hc] at hid ⊢
      rw [if_neg hc] at hid
      exact absurd hid hc
  · rintro ⟨sp, hsp, hid⟩
    refine ⟨_, List.mem_map_of_mem _ (List.mem_map_of_mem _ hsp), ?_⟩
    rw [if_pos hid]
    have hid2 : ({ sp with end_ts := some now1, status := s1, tags := t1 } : SpanRow).span_id = sid := hid
    rw [if_pos hid2]
    exact ⟨hid, rfl, rfl, rfl⟩
  · intro sp hsp hne
    simp only [List.map_map, List.mem_map, Function.comp] at hsp
    obtain ⟨s0, hs0, rfl⟩ := hsp
    by_cases hc : s0.span_id = sid
    · exfalso
      apply hne
      rw [if_pos hc]
      have hc2 : ({ s0 with end_ts := some now1, status := s1, tags := t1 } : SpanRow).span_id = sid := hc
      rw [if_pos hc2]
      exact hc
    · rw [if_neg hc, if_neg hc]
      exact hs0

/-- Concrete store for the C9 witness: one span of trace `"t"`. -/
def stC9 : State := ⟨[], [⟨"t", "s1", none, "svc", "op", 0, none, "ok", []⟩], []⟩

/-- Witness for C9: after ending span `"s1"` twice on the concrete store,
some stored span with id `"s1"` carries the second call's end time,
status and tags. -/
theorem endSpan_twice_lastWriteWins_witness :
    ∃ st1 st2,
      endSpan stC9 1 "s1" "error" [("k", "v")] = Except.ok st1
      ∧ endSpan st1 2 "s1" "ok" [] = Except.ok st2
      ∧ (∀ sp ∈ st2.spans, sp.span_id = "s1" →
          sp.end_ts = some 2 ∧ sp.status = "ok" ∧ sp.tags = [])
      ∧ ((∃ sp ∈ stC9.spans, sp.span_id = "s1") →
          ∃ sp ∈ st2.spans, sp.span_id = "s1" ∧ sp.end_ts = some 2
            ∧ sp.status = "ok" ∧ sp.tags = [])
      ∧ (∀ sp ∈ st2.spans, sp.span_id ≠ "s1" → sp ∈ stC9.spans) :=
  endSpan_twice_lastWriteWins stC9 1 2 "s1" "error" "ok" [("k", "v")] []

/-! ### Claim C10: the waterfall aligns one-to-one with the spans -/

/-- C10 (confirmed).  The waterfall list of `get_trace` has the same
length as its spans list, and entry `i` carries the service, operation
and status of span `i`, preserving order one-to-one. -/
theorem getTrace_waterfall_aligned (st : State) (now : Int) (tid : String)
    (i : ℕ) :
    (getTrace st now tid).waterfall.length = (getTrace st now tid).spans.length
    ∧ (getTrace st now tid).waterfall[i]?.map WaterfallEntry.service
        = (getTrace st now tid).spans[i]?.map SpanRow.service
    ∧ (getTrace st now tid).waterfall[i]?.map WaterfallEntry.operation
        = (getTrace st now tid).spans[i]?.map SpanRow.operation
    ∧ (getTrace st now tid).waterfall[i]?.map WaterfallEntry.status
        = (getTrace st now tid).spans[i]?.map SpanRow.status := by
  refine ⟨?_, ?_, ?_, ?_⟩
  · show ((getTrace st now tid).spans.map _).length = _
    rw [List.length_map]
  all_goals
    show (((getTrace st now tid).spans.map _)[i]?).map _ = _
    rw [List.getElem?_map, Option.map_map]
    rfl

end Obs
